import Mathlib

/-!
Verification of the special-cases parsing-and-verification engine of the
array-api test suite (`array_api_tests/test_special_cases.py`).

Scalars are modelled by `FP`, an idealised IEEE-style Python float: NaN,
signed infinities, signed zeros, and nonzero finite values carried exactly
as rationals (`FP.fin q` denotes the finite double of numeric value `q`;
`FP.fin 0` is a redundant representation of `+0.0` and every predicate
treats it exactly like `FP.posZero`).  Float arithmetic performed by the
code under verification is limited to negation, absolute value, comparison
and the `math.isclose` formula, all of which are exact, so the rational
model is faithful for them.
-/

inductive FP where
  | nan
  | posInf
  | negInf
  | posZero
  | negZero
  | fin (q : ℚ)
deriving DecidableEq

/-- Numeric value of a finite float, `none` for NaN and the infinities. -/
def toRat? : FP → Option ℚ
  | .nan => none
  | .posInf => none
  | .negInf => none
  | .posZero => some 0
  | .negZero => some 0
  | .fin q => some q

/-- Model of `math.isnan`. -/
def isnan : FP → Bool
  | .nan => true
  | _ => false

/-- Model of `math.isinf`. -/
def isinf : FP → Bool
  | .posInf => true
  | .negInf => true
  | _ => false

/-- Model of `math.isfinite`. -/
def isfinite : FP → Bool
  | .posZero => true
  | .negZero => true
  | .fin _ => true
  | _ => false

/-- IEEE sign bit, `true` for a negative sign.  `math.copysign(1, i) == 1`
in the source is `sign_bit i = false` here; NaN is modelled with a
positive sign bit. -/
def sign_bit : FP → Bool
  | .negInf => true
  | .negZero => true
  | .fin q => decide (q < 0)
  | _ => false

/-- IEEE numeric equality `a == b`: NaN equals nothing, `-0.0 == +0.0`,
and equal-signed infinities are equal. -/
def numEq (a b : FP) : Bool :=
  match toRat? a, toRat? b with
  | some x, some y => x == y
  | _, _ => (isinf a && isinf b) && (sign_bit a == sign_bit b)

/-- IEEE strict order `a < b`: any comparison with NaN is false. -/
def numLt (a b : FP) : Bool :=
  match toRat? a, toRat? b with
  | some x, some y => x < y
  | _, _ =>
    match a, b with
    | .nan, _ => false
    | _, .nan => false
    | .negInf, .negInf => false
    | .negInf, _ => true
    | .posInf, _ => false
    | _, .posInf => true
    | _, _ => false

/-- IEEE strict order `a > b`. -/
def numGt (a b : FP) : Bool :=
  numLt b a

/-- Float negation `-i`. -/
def fneg : FP → FP
  | .nan => .nan
  | .posInf => .negInf
  | .negInf => .posInf
  | .posZero => .negZero
  | .negZero => .posZero
  | .fin q => if q = 0 then .negZero else .fin (-q)

/-- Python `abs(i)`. -/
def fabs : FP → FP
  | .nan => .nan
  | .posInf => .posInf
  | .negInf => .posInf
  | .posZero => .posZero
  | .negZero => .posZero
  | .fin q => if q = 0 then .posZero else .fin |q|

/-- Python `float.is_integer`. -/
def is_integer : FP → Bool
  | .posZero => true
  | .negZero => true
  | .fin q => q.den == 1
  | _ => false

/-- Modelled from the spec: `ph.is_pos_zero` is imported from a
`pytest_helpers` module whose definition is not under `src/`; per the spec
it distinguishes `+0.0` from `-0.0` by sign bit: numerically zero with a
positive sign bit. -/
def is_pos_zero (i : FP) : Bool :=
  numEq i .posZero && !sign_bit i

/-- Modelled from the spec: `ph.is_neg_zero`, numerically zero with a
negative sign bit. -/
def is_neg_zero (i : FP) : Bool :=
  numEq i .posZero && sign_bit i

/-- Type of the source's `UnaryCheck = Callable[[float], bool]`. -/
abbrev UnaryCheck := FP → Bool

/-- Type of the source's `BinaryCheck = Callable[[float, float], bool]`. -/
abbrev BinaryCheck := FP → FP → Bool

/-- Model of `make_eq` (test_special_cases.py lines 40-52). -/
def make_eq (v : FP) : UnaryCheck :=
  if isnan v then isnan
  else if numEq v .posZero then
    if is_pos_zero v then is_pos_zero else is_neg_zero
  else fun i => numEq i v

/-- Model of `make_neq`. -/
def make_neq (v : FP) : UnaryCheck :=
  fun i => !make_eq v i

/-- Model of `math.isclose(a, b, rel_tol, abs_tol)`: true when `a == b`
(covers equal infinities), false when either operand is infinite or NaN
otherwise, else the tolerance formula
`abs(a-b) <= max(rel_tol * max(abs(a), abs(b)), abs_tol)`. -/
def isclose (a b : FP) (rel_tol abs_tol : ℚ) : Bool :=
  if numEq a b then true
  else if isinf a || isinf b then false
  else
    match toRat? a, toRat? b with
    | some x, some y => |x - y| ≤ max (rel_tol * max |x| |y|) abs_tol
    | _, _ => false

/-- Model of `make_rough_eq`: `math.isclose(i, v, abs_tol=0.01)` with the
default `rel_tol=1e-9` (the doubles nearest `1e-9` and `0.01` are modelled
by the exact rationals). The source's `assert math.isfinite(v)` is
enforced at the parse site (`parse_result`). -/
def make_rough_eq (v : FP) : UnaryCheck :=
  fun i => isclose i v (1 / 1000000000) (1 / 100)

/-- Model of `make_gt`; its `assert not math.isnan(v)` is enforced at the
parse site. -/
def make_gt (v : FP) : UnaryCheck :=
  fun i => numGt i v

/-- Model of `make_lt`. -/
def make_lt (v : FP) : UnaryCheck :=
  fun i => numLt i v

/-- Model of `make_or`. -/
def make_or (cond1 cond2 : UnaryCheck) : UnaryCheck :=
  fun i => cond1 i || cond2 i

/-- Model of `make_and` (test_special_cases.py lines 98-102).  The source
body is `return cond1(i) or cond2(i)` — a disjunction, despite the name. -/
def make_and (cond1 cond2 : UnaryCheck) : UnaryCheck :=
  fun i => cond1 i || cond2 i

/-- Model of `notify_cond` (boolean negation of a condition). -/
def notify_cond (cond : UnaryCheck) : UnaryCheck :=
  fun i => !cond i

/-- Model of `absify_cond` (precompose with `abs`). -/
def absify_cond (cond : UnaryCheck) : UnaryCheck :=
  fun i => cond (fabs i)

/-- Model of `same_sign`: `math.copysign(1, i1) == math.copysign(1, i2)`,
i.e. equality of sign bits. -/
def same_sign (i1 i2 : FP) : Bool :=
  sign_bit i1 == sign_bit i2

/-- Model of `diff_sign`. -/
def diff_sign (i1 i2 : FP) : Bool :=
  !same_sign i1 i2

/-!
String-level parsing layer.  The source drives parsing with anchored
regexes; each is transcribed here as an explicit matcher over `List Char`
(`re.match` requires only a prefix match, so trailing characters are
allowed; `.` never matches a newline; greedy groups take the longest
possible match).
-/

/-- Backtick character (regexes quote code spans with double backticks). -/
def backtick : Char := Char.ofNat 96

/-- Characters matched by the regex class `\s`. -/
def isSpaceCh (c : Char) : Bool :=
  c == ' ' || c == '\t' || c == '\n' || c == '\r' || c == '\x0b' || c == '\x0c'

/-- Length of the maximal non-`\s` prefix, i.e. how far a greedy `[^\s]+`
can reach. -/
def nonspaceLen : List Char → Nat
  | [] => 0
  | c :: t => if isSpaceCh c then 0 else nonspaceLen t + 1

/-- Matcher for `` r_code = "``([^\s]+)``" `` anchored at the start:
two backticks, a greedy nonempty run of non-space characters, two closing
backticks (the greedy run backtracks to the last double backtick inside
the non-space prefix).  Returns the group and the remaining characters. -/
def matchCode (cs : List Char) : Option (List Char × List Char) :=
  match cs with
  | c1 :: c2 :: t =>
    if c1 == backtick && c2 == backtick then
      let ks := (List.range (nonspaceLen t)).filter fun k =>
        decide (1 ≤ k) && (t.getD k ' ' == backtick) &&
          (t.getD (k + 1) ' ' == backtick)
      match ks.getLast? with
      | some k => some (t.take k, t.drop (k + 2))
      | none => none
    else none
  | _ => none

/-- Matcher for `r_value = "([+-]?)(.+)"` anchored at the start: an
optional sign character and a nonempty remainder not crossing a newline.
With an empty remainder after the sign, the regex backtracks and the sign
character itself becomes the second group. -/
def matchValueParts (cs : List Char) : Option (Option Char × List Char) :=
  match cs with
  | [] => none
  | c :: rest =>
    if c == '+' || c == '-' then
      let g2 := rest.takeWhile (fun d => d != '\n')
      if g2.isEmpty then
        if c == '\n' then none else some (none, [c])
      else some (some c, g2)
    else
      let g2 := (c :: rest).takeWhile (fun d => d != '\n')
      if g2.isEmpty then none else some (none, g2)

/-- Matcher for the π forms `r_pi = "(\d?)π(?:/(\d))?"` anchored at the
start: an optional single-digit numerator, the π character, and an
optional `/digit` denominator. -/
def matchPi (cs : List Char) : Option (Option Nat × Option Nat) :=
  let den : List Char → Option Nat := fun rest =>
    match rest with
    | '/' :: d :: _ => if d.isDigit then some (d.toNat - 48) else none
    | _ => none
  match cs with
  | [] => none
  | c :: rest =>
    if c == 'π' then some (none, den rest)
    else if c.isDigit then
      match rest with
      | c2 :: rest2 =>
        if c2 == 'π' then some (some (c.toNat - 48), den rest2) else none
      | [] => none
    else none

/-- Exact rational value of the double `math.pi`. -/
def pythonPi : ℚ := 884279719003555 / 281474976710656

/-- Model of the `repr_to_value` lookup table. -/
def repr_to_value (s : List Char) : Option FP :=
  if s == "NaN".toList then some .nan
  else if s == "infinity".toList then some .posInf
  else if s == "0".toList then some .posZero
  else if s == "1".toList then some (.fin 1)
  else none

/-- Python exceptions raised by the parsing layer.  `valueParse` models
`ValueParseError` (a `ValueError` subclass) — the only kind the docstring
parsers catch; `keyError` models the `KeyError` escaping from
`repr_to_value[...]`; `assertError` the `AssertionError` of the factory
sanity checks; `zeroDivision` the `ZeroDivisionError` of a zero π
denominator.  None of the last three is caught anywhere. -/
inductive PErr where
  | valueParse (s : String)
  | keyError (s : String)
  | assertError
  | zeroDivision
deriving DecidableEq

/-- Model of `parse_value` (test_special_cases.py lines 208-223).  π
multiples are computed exactly in ℚ (the source computes them in double
precision; no claim compares π-derived values).  An unrecognized token
hits the dictionary lookup and raises `KeyError`, not `ValueParseError`. -/
def parse_value (value_str : String) : Except PErr FP :=
  match matchValueParts value_str.toList with
  | none => .error (.valueParse value_str)
  | some (sign, g2) =>
    let base : Except PErr FP :=
      match matchPi g2 with
      | some (num, den) =>
        let v1 : ℚ := match num with
          | some n => pythonPi * n
          | none => pythonPi
        match den with
        | some d =>
          if d = 0 then .error .zeroDivision else .ok (FP.fin (v1 / d))
        | none => .ok (FP.fin v1)
      | none =>
        match repr_to_value g2 with
        | some v => .ok v
        | none => .error (.keyError (String.mk g2))
    base.map fun v => if sign == some '-' then fneg v else v

/-- Matcher for `r_not = "not (?:equal to )?(.+)"` anchored at the start. -/
def matchNot (cs : List Char) : Option (List Char) :=
  if ("not ".toList).isPrefixOf cs then
    let rest := cs.drop 4
    let dropEq : List Char :=
      if ("equal to ".toList).isPrefixOf rest then rest.drop 9 else rest
    let g := dropEq.takeWhile (fun d => d != '\n')
    if g.isEmpty then
      let g2 := rest.takeWhile (fun d => d != '\n')
      if g2.isEmpty then none else some g2
    else some g
  else none

/-- Matcher for `r_gt = "greater than ``…``"` anchored at the start. -/
def matchGt (cs : List Char) : Option (List Char) :=
  if ("greater than ".toList).isPrefixOf cs then
    (matchCode (cs.drop 13)).map (·.1)
  else none

/-- Matcher for `r_lt = "less than ``…``"` anchored at the start. -/
def matchLt (cs : List Char) : Option (List Char) :=
  if ("less than ".toList).isPrefixOf cs then
    (matchCode (cs.drop 10)).map (·.1)
  else none

/-- Matcher for `r_either_code = "either ``…`` or ``…``"` anchored at the
start. -/
def matchEither (cs : List Char) : Option (List Char × List Char) :=
  if ("either ".toList).isPrefixOf cs then
    match matchCode (cs.drop 7) with
    | some (g1, rest) =>
      if (" or ".toList).isPrefixOf rest then
        (matchCode (rest.drop 4)).map fun p => (g1, p.1)
      else none
    | none => none
  else none

/-- Python substring membership `pat in s`, on character lists. -/
def isSubOf (pat : List Char) : List Char → Bool
  | [] => pat.isEmpty
  | c :: t => pat.isPrefixOf (c :: t) || isSubOf pat t

/-- Python `i % 2 == 1` restricted to the values at which `parse_cond`
evaluates it (after `i.is_integer()`): the numerator is odd (Python float
modulo by a positive divisor yields a non-negative representative, so
`(-3.0) % 2 == 1.0`). -/
def mod_two_eq_one : FP → Bool
  | .fin q => q.den == 1 && q.num % 2 == 1
  | _ => false

/-- The condition phrase of the "positive finite" branch; the source
tests the candidate string by substring membership (`in`) against it. -/
def posFinStr : String := "a positive (i.e., greater than ``0``) finite number"

/-- The condition phrase of the "negative finite" branch; tested by
string equality in the source. -/
def negFinStr : String := "a negative (i.e., less than ``0``) finite number"

/-- Branch ladder of `parse_cond` (test_special_cases.py lines 252-307)
after the `r_not` strip, in source order.  Expression-template strings are
not modelled (they feed diagnostics only). -/
def parse_cond_aux (cs : List Char) : Except PErr UnaryCheck :=
  match matchCode cs with
  | some (g, _) => (parse_value (String.mk g)).map make_eq
  | none =>
  match matchGt cs with
  | some g =>
    (parse_value (String.mk g)).bind fun v =>
      if isnan v then .error .assertError else .ok (make_gt v)
  | none =>
  match matchLt cs with
  | some g =>
    (parse_value (String.mk g)).bind fun v =>
      if isnan v then .error .assertError else .ok (make_lt v)
  | none =>
  match matchEither cs with
  | some (g1, g2) =>
    (parse_value (String.mk g1)).bind fun v1 =>
      (parse_value (String.mk g2)).map fun v2 =>
        make_or (make_eq v1) (make_eq v2)
  | none =>
  if cs == "finite".toList || cs == "a finite number".toList then .ok isfinite
  else if isSubOf cs posFinStr.toList then
    .ok fun i => isfinite i && numGt i .posZero
  else if cs == negFinStr.toList then
    .ok fun i => isfinite i && numLt i .posZero
  else if cs == "positive".toList then .ok fun i => !sign_bit i
  else if cs == "negative".toList then .ok fun i => sign_bit i
  else if isSubOf ("nonzero finite".toList) cs then
    .ok fun i => isfinite i && !numEq i .posZero
  else if cs == "an integer value".toList then .ok is_integer
  else if cs == "an odd integer value".toList then
    .ok fun i => is_integer i && mod_two_eq_one i
  else .error (.valueParse (String.mk cs))

/-- Model of `parse_cond`: strip an optional `not (equal to)` wrapper,
run the branch ladder, and negate the produced condition if stripped. -/
def parse_cond (cond_str : String) : Except PErr UnaryCheck :=
  match matchNot cond_str.toList with
  | some g => (parse_cond_aux g).map notify_cond
  | none => parse_cond_aux cond_str.toList

/-- Matcher for `r_approx_value`: the literal prefix
"an implementation-dependent approximation to " followed by a code span. -/
def matchApprox (cs : List Char) : Option (List Char) :=
  let pre := ("an implementation-dependent approximation to ").toList
  if pre.isPrefixOf cs then (matchCode (cs.drop pre.length)).map (·.1)
  else none

/-- Model of `parse_result` (test_special_cases.py lines 310-322): a code
span gives the exact check `make_eq`; an approximation clause gives
`make_rough_eq` (whose `assert math.isfinite(v)` is checked here, at the
factory call). -/
def parse_result (result_str : String) : Except PErr UnaryCheck :=
  match matchCode result_str.toList with
  | some (g, _) => (parse_value (String.mk g)).map make_eq
  | none =>
    match matchApprox result_str.toList with
    | some g =>
      (parse_value (String.mk g)).bind fun v =>
        if isfinite v then .ok (make_rough_eq v) else .error .assertError
    | none => .error (.valueParse result_str)

/-- Condition produced by `parse_cond`, applied to a scalar. -/
def parse_cond_apply (s : String) (i : FP) : Except PErr Bool :=
  (parse_cond s).map fun c => c i

/-- Result check produced by `parse_result`, applied to a scalar. -/
def parse_result_apply (s : String) (r : FP) : Except PErr Bool :=
  (parse_result s).map fun c => c r

/-- Operand selector of `ValueCondFactory` (the `input_` field, one of the
literals "i1", "i2", "either", "both"). -/
inductive Inp where
  | i1
  | i2
  | either
  | both
deriving DecidableEq

/-- Matcher for `` r_array_element = "``([+-]?)x([12])_i``" `` anchored at
the start: an operand reference with an optional sign.  Returns the sign
character (if any) and the operand digit. -/
def matchArrayElement (cs : List Char) : Option (Option Char × Char) :=
  match cs with
  | c1 :: c2 :: rest =>
    if c1 == backtick && c2 == backtick then
      let signRest : Option Char × List Char :=
        match rest with
        | c :: r => if c == '+' || c == '-' then (some c, r) else (none, rest)
        | [] => (none, rest)
      match signRest.2 with
      | x :: d :: u :: i :: b1 :: b2 :: _ =>
        if x == 'x' && (d == '1' || d == '2') && u == '_' && i == 'i' &&
            b1 == backtick && b2 == backtick then
          some (signRest.1, d)
        else none
      | _ => none
    else none
  | _ => none

/-- Model of `ValueCondFactory.__call__` (test_special_cases.py lines
446-510), given the already-selected regex group (the `re_groups_i`
indexing is performed by the caller).  An operand-reference group produces
a condition evaluated against the *other operand's current value* via
`make_eq`, built afresh at each call; any other group goes through
`parse_cond`, optionally wrapped in `abs`, and is dispatched onto the
selected operand(s).  The source's sanity asserts (`not self.abs_` for an
operand reference, `input_` being "i1" or "i2" there) are modelled as
`assertError`. -/
def value_cond_factory (input_ : Inp) (abs_ : Bool) (group : String) :
    Except PErr BinaryCheck :=
  match matchArrayElement group.toList with
  | some (sign, _) =>
    if abs_ then .error .assertError
    else
      let signer : FP → FP := if sign == some '-' then fneg else id
      match input_ with
      | .i1 => .ok fun i1 i2 => make_eq (signer i2) i1
      | .i2 => .ok fun i1 i2 => make_eq (signer i1) i2
      | _ => .error .assertError
  | none =>
    (parse_cond group).map fun c0 =>
      let c := if abs_ then absify_cond c0 else c0
      match input_ with
      | .i1 => fun i1 _ => c i1
      | .i2 => fun _ i2 => c i2
      | .either => fun i1 i2 => c i1 || c i2
      | .both => fun i1 i2 => c i1 && c i2

/-- Model of `SignCondFactory.__call__`. -/
def sign_cond_factory (group : String) : Except PErr BinaryCheck :=
  if group == "the same mathematical sign" then .ok same_sign
  else if group == "different mathematical signs" then .ok diff_sign
  else .error (.valueParse group)

/-- Model of `ResultCheckFactory.__call__` (test_special_cases.py lines
564-595): an operand-reference result clause compares the observed result
against the (optionally negated) current value of the named operand via
`make_eq`; otherwise the group goes through `parse_result` and ignores the
operands. -/
def result_check_factory (group : String) :
    Except PErr (FP → FP → FP → Bool) :=
  match matchArrayElement group.toList with
  | some (sign, d) =>
    let signer : FP → FP := if sign == some '-' then fneg else id
    if d == '1' then .ok fun i1 _ r => make_eq (signer i1) r
    else .ok fun _ i2 r => make_eq (signer i2) r
  | none =>
    (parse_result group).map fun chk => fun _ _ r => chk r

/-- Model of `ResultSignCheckFactory.__call__` (test_special_cases.py
lines 598-618): a NaN result is accepted unconditionally, otherwise the
result must be positive (or `+0.0`) resp. negative (or `-0.0`). -/
def result_sign_check_factory (group : String) :
    Except PErr (FP → FP → FP → Bool) :=
  if group == "positive" then
    .ok fun _ _ r => if isnan r then true else numGt r .posZero || is_pos_zero r
  else if group == "negative" then
    .ok fun _ _ r => if isnan r then true else numLt r .posZero || is_neg_zero r
  else .error (.valueParse group)

/-- Condition produced by `value_cond_factory`, applied to a pair. -/
def value_cond_apply (input_ : Inp) (abs_ : Bool) (g : String) (i1 i2 : FP) :
    Except PErr Bool :=
  (value_cond_factory input_ abs_ g).map fun c => c i1 i2

/-- Check produced by `result_check_factory`, applied to inputs/output. -/
def result_check_apply (g : String) (i1 i2 r : FP) : Except PErr Bool :=
  (result_check_factory g).map fun c => c i1 i2 r

/-- Check produced by `result_sign_check_factory`, applied. -/
def result_sign_check_apply (g : String) (i1 i2 r : FP) : Except PErr Bool :=
  (result_sign_check_factory g).map fun c => c i1 i2 r

/-- A parsed unary case: input condition and result check, the shape
`UnaryCase.from_strings` produces (`check_result` receives the input and
the observed output). -/
structure UnaryCase where
  cond : UnaryCheck
  check_result : FP → FP → Bool

/-- A parsed binary case. -/
structure BinaryCase where
  cond : BinaryCheck
  check_result : FP → FP → FP → Bool

/-- Outcome of one verification iteration of `test_unary`/`test_binary`:
the assertion raised on a violated result check (`fail`), the
`assume(good_example)` rejection when no case ever fired (`reject`), or a
normal pass. -/
inductive Outcome where
  | pass
  | reject
  | fail
deriving DecidableEq

/-- First case of the ordered list whose condition holds on the input —
the inner `for case in cases: if case.cond(in_): ... break` scan. -/
def firstMatch (cases : List UnaryCase) (i : FP) : Option UnaryCase :=
  cases.find? fun c => c.cond i

/-- Binary variant of `firstMatch`. -/
def firstMatchB (cases : List BinaryCase) (i1 i2 : FP) : Option BinaryCase :=
  cases.find? fun c => c.cond i1 i2

/-- Element loop of `test_unary` (test_special_cases.py lines 796-814)
carrying the `good_example` flag: each element is checked against the
first matching case; a violated check raises immediately (`fail`); after
the loop, `assume(good_example)` rejects iff no case ever fired. -/
def unary_loop (cases : List UnaryCase) (f : FP → FP) :
    List FP → Bool → Outcome
  | [], good => if good then .pass else .reject
  | x :: rest, good =>
    match firstMatch cases x with
    | none => unary_loop cases f rest good
    | some c =>
      if c.check_result x (f x) then unary_loop cases f rest true else .fail

/-- Model of `test_unary`: the elements of the sampled array are the list
`xs`; the function under test is the scalar map `f`. -/
def test_unary (cases : List UnaryCase) (f : FP → FP) (xs : List FP) :
    Outcome :=
  unary_loop cases f xs false

/-- Element loop of `test_binary` (test_special_cases.py lines 816-841);
`ps` lists the broadcast-aligned operand pairs produced by
`iter_indices`. -/
def binary_loop (cases : List BinaryCase) (f : FP → FP → FP) :
    List (FP × FP) → Bool → Outcome
  | [], good => if good then .pass else .reject
  | p :: rest, good =>
    match firstMatchB cases p.1 p.2 with
    | none => binary_loop cases f rest good
    | some c =>
      if c.check_result p.1 p.2 (f p.1 p.2) then binary_loop cases f rest true
      else .fail

/-- Model of `test_binary`. -/
def test_binary (cases : List BinaryCase) (f : FP → FP → FP)
    (ps : List (FP × FP)) : Outcome :=
  binary_loop cases f ps false

/-- Matcher for `` r_case = "\s+-\s*(.*)\.\n?" `` anchored at the start:
leading whitespace, a dash, optional whitespace, then a greedy group
reaching to the last dot of the line. -/
def matchCaseLine (line : String) : Option String :=
  let cs := line.toList
  let ws := cs.takeWhile isSpaceCh
  if ws.isEmpty then none
  else
    match cs.drop ws.length with
    | c :: rest =>
      if c == '-' then
        let rest2 := rest.dropWhile isSpaceCh
        let lineChars := rest2.takeWhile fun d => d != '\n'
        match ((List.range lineChars.length).filter fun k =>
            lineChars.getD k ' ' == '.').getLast? with
        | some k => some (String.mk (lineChars.take k))
        | none => none
      else none
    | [] => none

/-- Searcher for `r_unary_case = "If ``x_i`` is (.+), the result is (.+)"`
(`re.search`): the leftmost occurrence of the fixed head followed by a
greedy split at the last ", the result is " with both groups nonempty. -/
def searchUnaryCase (s : String) : Option (String × String) :=
  let cs := s.toList
  let pre := ("If ``x_i`` is ").toList
  let mid := (", the result is ").toList
  let tryAt : Nat → Option (String × String) := fun k =>
    if pre.isPrefixOf (cs.drop k) then
      let rest := (cs.drop (k + pre.length)).takeWhile fun d => d != '\n'
      match ((List.range rest.length).filter fun j =>
          decide (1 ≤ j) && mid.isPrefixOf (rest.drop j) &&
            decide (j + mid.length < rest.length)).getLast? with
      | some j =>
        some (String.mk (rest.take j), String.mk (rest.drop (j + mid.length)))
      | none => none
    else none
  ((List.range (cs.length + 1)).filterMap tryAt).head?

/-- The fixed sentence of `r_even_int_round_case` (no metacharacters, so
`re.search` is substring containment). -/
def evenIntRoundPat : List Char :=
  ("If two integers are equally close to ``x_i``, " ++
    "the result is the even integer closest to ``x_i``").toList

/-- Searcher for `r_remaining_case = "In the remaining cases.+"`: the
literal text followed by at least one more character on the line. -/
def searchRemaining (cs : List Char) : Bool :=
  let pat := ("In the remaining cases").toList
  (List.range cs.length).any fun k =>
    pat.isPrefixOf (cs.drop k) &&
      !((cs.drop (k + pat.length)).takeWhile fun d => d != '\n').isEmpty

/-- Round to the nearest integer, ties to even — the
`Decimal.to_integral_exact(ROUND_HALF_EVEN)` rule. -/
def roundHalfEven (q : ℚ) : ℤ :=
  let f := ⌊q⌋
  if q - f < 1 / 2 then f
  else if q - f > 1 / 2 then f + 1
  else if f % 2 = 0 then f else f + 1

/-- Model of the `even_int_round_case` constant: condition `i % 0.5 == 0`
(a finite half-integer; for infinite or NaN input the Python modulo is
NaN and the comparison false) and check `r == round-half-even(i)` (the
comparison is numeric `==`, so the sign of a zero result is ignored,
exactly as in the source). -/
def even_int_round_case : UnaryCase where
  cond := fun i =>
    match toRat? i with
    | some q => (2 * q).den == 1
    | none => false
  check_result := fun i r =>
    match toRat? i with
    | some q => numEq r (FP.fin (roundHalfEven q))
    | none => false

/-- Model of `UnaryCase.from_strings`: parse the condition, then the
result (each may throw), and wrap the result check to ignore the input. -/
def UnaryCase.from_strings (cond_str result_str : String) :
    Except PErr UnaryCase :=
  (parse_cond cond_str).bind fun cond =>
    (parse_result result_str).map fun check =>
      { cond := cond, check_result := fun _ r => check r }

/-- Warnings emitted by the docstring parser (`warn(...)` calls), by
message shape. -/
inductive Warning where
  | lineNotReadable (line : String)
  | notReadable (value : String)
  | caseNotReadable (case : String)
deriving DecidableEq

/-- Model of the per-bullet loop of `parse_unary_docstring`
(test_special_cases.py lines 392-416), given the bullet lines already
extracted by the `r_special_cases` block match.  Warnings are collected
in order; only `ValueParseError` is caught (warn and skip) — any other
exception (`KeyError`, `AssertionError`, `ZeroDivisionError`) propagates
and aborts the parse. -/
def parse_unary_docstring_loop :
    List String → Except PErr (List UnaryCase × List Warning)
  | [] => .ok ([], [])
  | line :: rest =>
    match matchCaseLine line with
    | none =>
      (parse_unary_docstring_loop rest).map fun p =>
        (p.1, .lineNotReadable line :: p.2)
    | some case =>
      match searchUnaryCase case with
      | some (cond_str, result_str) =>
        match UnaryCase.from_strings cond_str result_str with
        | .ok c =>
          (parse_unary_docstring_loop rest).map fun p => (c :: p.1, p.2)
        | .error (.valueParse v) =>
          (parse_unary_docstring_loop rest).map fun p =>
            (p.1, .notReadable v :: p.2)
        | .error e => .error e
      | none =>
        if isSubOf evenIntRoundPat case.toList then
          (parse_unary_docstring_loop rest).map fun p =>
            (even_int_round_case :: p.1, p.2)
        else if searchRemaining case.toList then
          parse_unary_docstring_loop rest
        else
          (parse_unary_docstring_loop rest).map fun p =>
            (p.1, .caseNotReadable case :: p.2)

/-- Observable shape of a parse: number of cases and the warnings. -/
def parse_unary_shape (ls : List String) : Except PErr (Nat × List Warning) :=
  (parse_unary_docstring_loop ls).map fun p => (p.1.length, p.2)

/-- C1: the claim says `make_and(c1, c2)` holds iff both conditions hold.
The source body of `make_and` returns `cond1(i) or cond2(i)`, so at
`cond1 = make_gt 0`, `cond2 = make_lt 0`, `i = 1.0` the combinator returns
true while the conjunction of the two conditions is false: the code
contradicts the function's own name and the spec's intent (a slip copied
from `make_or`). -/
theorem c1_make_and_is_or_bug :
    make_and (make_gt .posZero) (make_lt .posZero) (.fin 1) = true ∧
      (make_gt .posZero (.fin 1) && make_lt .posZero (.fin 1)) = false ∧
      (∀ c1 c2 : UnaryCheck, ∀ i : FP, make_and c1 c2 i = (c1 i || c2 i)) := by
  refine ⟨by decide, by decide, ?_⟩
  intro c1 c2 i
  rfl

/-- C3: `make_eq 0.0` accepts `+0.0` and rejects `-0.0`; `make_eq (-0.0)`
accepts `-0.0` and rejects `+0.0`; `make_eq NaN` accepts exactly the NaN
values; and for nonzero non-NaN `v`, `make_eq v` accepts `i` exactly when
`i == v` numerically. -/
theorem c3_make_eq_cases :
    (make_eq .posZero .posZero = true ∧ make_eq .posZero .negZero = false) ∧
      (make_eq .negZero .negZero = true ∧ make_eq .negZero .posZero = false) ∧
      (∀ i, make_eq .nan i = isnan i) ∧
      (∀ v, isnan v = false → numEq v .posZero = false →
        ∀ i, make_eq v i = numEq i v) := by
  refine ⟨⟨by decide, by decide⟩, ⟨by decide, by decide⟩, ?_, ?_⟩
  · intro i; rfl
  · intro v h1 h2 i
    simp [make_eq, h1, h2]

/-- C3 witness: the general-value clause of `c3_make_eq_cases`
instantiated at `v = 2.0`, `i = 2.0`. -/
theorem c3_make_eq_cases_witness :
    (isnan (.fin 2) = false ∧ numEq (.fin 2) .posZero = false) ∧
      make_eq (.fin 2) (.fin 2) = numEq (.fin 2) (.fin 2) :=
  ⟨⟨by decide, by decide⟩,
    c3_make_eq_cases.2.2.2 (.fin 2) (by decide) (by decide) (.fin 2)⟩

/-- C8: `same_sign` compares IEEE sign bits: `same_sign (-0.0) (-1.0)` is
true, `same_sign 0.0 (-0.0)` is false, and `diff_sign` is the pointwise
negation of `same_sign`. -/
theorem c8_same_sign_sign_bits :
    same_sign .negZero (.fin (-1)) = true ∧
      same_sign .posZero .negZero = false ∧
      (∀ i1 i2, same_sign i1 i2 = (sign_bit i1 == sign_bit i2)) ∧
      (∀ i1 i2, diff_sign i1 i2 = !same_sign i1 i2) := by
  refine ⟨by decide, by decide, ?_, ?_⟩ <;> intro i1 i2 <;> rfl

/-- Heads of a prefix relation agree. -/
theorem isPrefixOf_head {a c : Char} {as t : List Char}
    (h : (a :: as).isPrefixOf (c :: t) = true) : a = c := by
  simp only [List.isPrefixOf, Bool.and_eq_true, beq_iff_eq] at h
  exact h.1

/-- A string matching the approximation clause starts with `a`, not with a
backtick, so the anchored code-span regex cannot match it. -/
theorem matchCode_eq_none_of_matchApprox {cs g : List Char}
    (h : matchApprox cs = some g) : matchCode cs = none := by
  have hpre :
      (("an implementation-dependent approximation to ").toList).isPrefixOf cs
        = true := by
    by_contra hnp
    unfold matchApprox at h
    rw [if_neg hnp] at h
    exact Option.noConfusion h
  rcases cs with _ | ⟨c, t⟩
  · exact absurd hpre (by decide)
  · have hc : c = 'a' := by
      rw [show ("an implementation-dependent approximation to ").toList
          = 'a' :: ("n implementation-dependent approximation to ").toList
          from rfl] at hpre
      exact (isPrefixOf_head hpre).symm
    subst hc
    rcases t with _ | ⟨c2, t2⟩ <;> rfl

/-- C9: parsing the exact condition phrase "positive" yields the
finite-and-greater-than-zero predicate: the phrase is a substring of the
"a positive (i.e., greater than ``0``) finite number" branch test, which
is reached before the dedicated sign-bit branch, so neither `+0.0` nor
`+infinity` satisfies the parsed condition. -/
theorem c9_positive_parses_to_finite_gt_zero :
    (∀ i, parse_cond_apply "positive" i = .ok (isfinite i && numGt i .posZero)) ∧
      parse_cond_apply "positive" .posZero = .ok false ∧
      parse_cond_apply "positive" .posInf = .ok false := by
  refine ⟨fun i => rfl, rfl, rfl⟩

/-- Evaluation of `parse_result` on an approximation clause: the produced
check is `make_rough_eq` applied to the parsed target. -/
theorem parse_result_approx_eval {s : String} {g : List Char} {v : FP}
    (happrox : matchApprox s.toList = some g)
    (hval : parse_value (String.mk g) = .ok v)
    (hfin : isfinite v = true) (r : FP) :
    parse_result_apply s r = .ok (isclose r v (1 / 1000000000) (1 / 100)) := by
  simp only [parse_result_apply, parse_result,
    matchCode_eq_none_of_matchApprox happrox, happrox, hval]
  show Except.map _ (if isfinite v = true then _ else _) = _
  rw [hfin]
  rfl

/-- The rough check rejects an output at distance `1/16` from its target:
`1/16` exceeds `max(1e-9 * max |r| |v|, 0.01)`. -/
theorem isclose_rough_rejects_sixteenth :
    isclose (.fin (17 / 16)) (.fin 1) (1 / 1000000000) (1 / 100) = false := by
  have hne : ((17 / 16 : ℚ) == 1) = false := by norm_num
  simp only [isclose, numEq, toRat?, isinf, hne]
  simp only [Bool.false_eq_true, if_false, Bool.or_self, decide_eq_false_iff_not,
    not_le]
  rw [abs_of_nonneg (by norm_num : (0 : ℚ) ≤ 17 / 16 - 1),
    abs_of_nonneg (by norm_num : (0 : ℚ) ≤ (17 / 16 : ℚ)), abs_one,
    max_eq_left (by norm_num : (1 : ℚ) ≤ 17 / 16), max_lt_iff]
  constructor <;> norm_num

/-- C2 counterexample: for the clause "an implementation-dependent
approximation to ``1``" and observed output `1.0625` (exactly `17/16`),
the distance to the target is `1/16 ≤ 0.1`, so by the claim the check
should accept; the parsed check is `make_rough_eq` — `math.isclose` with
`abs_tol=0.01` — and rejects. -/
theorem c2_counterexample_tolerance :
    parse_result_apply "an implementation-dependent approximation to ``1``"
        (.fin (17 / 16)) = .ok false ∧
      |(17 / 16 : ℚ) - 1| ≤ 1 / 10 := by
  constructor
  · rw [parse_result_approx_eval
      (s := "an implementation-dependent approximation to ``1``")
      (g := ['1']) (v := .fin 1) rfl rfl rfl, isclose_rough_rejects_sixteenth]
  · rw [abs_of_nonneg (by norm_num : (0 : ℚ) ≤ 17 / 16 - 1)]
    norm_num

/-- C2 amended: the check produced for an approximation clause with finite
target `v` accepts an observed output `r` iff
`math.isclose(r, v, rel_tol=1e-9, abs_tol=0.01)` holds — absolute
tolerance `0.01` (plus the default tiny relative term), not `0.1`. -/
theorem c2_amended_rough_isclose :
    ∀ (s : String) (g : List Char) (v r : FP),
      matchApprox s.toList = some g →
      parse_value (String.mk g) = .ok v →
      isfinite v = true →
      parse_result_apply s r = .ok (isclose r v (1 / 1000000000) (1 / 100)) :=
  fun _ _ _ r happrox hval hfin =>
    parse_result_approx_eval happrox hval hfin r

/-- C2 amended witness: the clause
"an implementation-dependent approximation to ``1``" with output `1.0`. -/
theorem c2_amended_rough_isclose_witness :
    (matchApprox ("an implementation-dependent approximation to ``1``").toList
        = some ['1'] ∧
      parse_value (String.mk ['1']) = .ok (.fin 1) ∧
      isfinite (FP.fin 1) = true) ∧
      parse_result_apply "an implementation-dependent approximation to ``1``"
        (.fin 1) = .ok (isclose (.fin 1) (.fin 1) (1 / 1000000000) (1 / 100)) :=
  ⟨⟨rfl, rfl, rfl⟩,
    c2_amended_rough_isclose _ ['1'] (.fin 1) (.fin 1) rfl rfl rfl⟩

/-- C7: a binary clause naming the other operand ("``x2_i`` is
``-x1_i``", "``+x1_i``", etc.) parses to a condition comparing the named
operand's current value with the other operand's current (optionally
negated) value through `make_eq` — NaN-aware and zero-sign-exact — and
result clauses naming an operand behave the same; the comparison target
tracks the operand, so it is not a literal fixed at parse time. -/
theorem c7_operand_reference_is_dynamic :
    (∀ i1 i2, value_cond_apply .i2 false "``-x1_i``" i1 i2 =
      .ok (make_eq (fneg i1) i2)) ∧
    (∀ i1 i2, value_cond_apply .i2 false "``+x1_i``" i1 i2 =
      .ok (make_eq i1 i2)) ∧
    (∀ i1 i2, value_cond_apply .i1 false "``-x2_i``" i1 i2 =
      .ok (make_eq (fneg i2) i1)) ∧
    (∀ i1 i2, value_cond_apply .i1 false "``x2_i``" i1 i2 =
      .ok (make_eq i2 i1)) ∧
    (∀ i1 i2 r, result_check_apply "``-x1_i``" i1 i2 r =
      .ok (make_eq (fneg i1) r)) ∧
    (∀ i1 i2 r, result_check_apply "``x2_i``" i1 i2 r =
      .ok (make_eq i2 r)) ∧
    value_cond_apply .i2 false "``x1_i``" .nan .nan = .ok true ∧
    value_cond_apply .i2 false "``-x1_i``" .posZero .negZero = .ok true ∧
    value_cond_apply .i2 false "``-x1_i``" .posZero .posZero = .ok false ∧
    value_cond_apply .i2 false "``x1_i``" (.fin 3) (.fin 3) = .ok true ∧
    value_cond_apply .i2 false "``x1_i``" (.fin 4) (.fin 3) = .ok false := by
  refine ⟨fun i1 i2 => rfl, fun i1 i2 => rfl, fun i1 i2 => rfl,
    fun i1 i2 => rfl, fun i1 i2 r => rfl, fun i1 i2 r => rfl,
    rfl, ?_, ?_, ?_, ?_⟩ <;> rfl

/-- C10: for the "the result has a positive/negative mathematical sign"
result clauses, a NaN observed output satisfies the parsed check
unconditionally, whatever the input operands. -/
theorem c10_nan_result_always_accepted :
    (∀ i1 i2, result_sign_check_apply "positive" i1 i2 .nan = .ok true) ∧
    (∀ i1 i2, result_sign_check_apply "negative" i1 i2 .nan = .ok true) :=
  ⟨fun _ _ => rfl, fun _ _ => rfl⟩

/-- When no element matches any case, the loop ends in the state its flag
dictates. -/
theorem unary_loop_all_none (cases : List UnaryCase) (f : FP → FP) :
    ∀ (xs : List FP) (g : Bool), (∀ x ∈ xs, firstMatch cases x = none) →
      unary_loop cases f xs g = if g then .pass else .reject := by
  intro xs
  induction xs with
  | nil => intro g _; rfl
  | cons x rest ih =>
    intro g h
    simp only [unary_loop]
    rw [h x (by simp)]
    exact ih g fun y hy => h y (by simp [hy])

/-- A `fail` outcome exhibits an element whose first matching case has a
violated result check. -/
theorem unary_loop_fail (cases : List UnaryCase) (f : FP → FP) :
    ∀ (xs : List FP) (g : Bool), unary_loop cases f xs g = .fail →
      ∃ x ∈ xs, ∃ c, firstMatch cases x = some c ∧
        c.check_result x (f x) = false := by
  intro xs
  induction xs with
  | nil =>
    intro g h
    cases g <;> simp [unary_loop] at h
  | cons x rest ih =>
    intro g h
    simp only [unary_loop] at h
    cases hfm : firstMatch cases x with
    | none =>
      rw [hfm] at h
      obtain ⟨y, hy, hc⟩ := ih g h
      exact ⟨y, by simp [hy], hc⟩
    | some c =>
      rw [hfm] at h
      dsimp only at h
      by_cases hchk : c.check_result x (f x) = true
      · rw [if_pos hchk] at h
        obtain ⟨y, hy, hc⟩ := ih true h
        exact ⟨y, by simp [hy], hc⟩
      · exact ⟨x, by simp, c, hfm, by simpa using hchk⟩

/-- Binary variant of `unary_loop_all_none`. -/
theorem binary_loop_all_none (cases : List BinaryCase) (f : FP → FP → FP) :
    ∀ (ps : List (FP × FP)) (g : Bool),
      (∀ p ∈ ps, firstMatchB cases p.1 p.2 = none) →
      binary_loop cases f ps g = if g then .pass else .reject := by
  intro ps
  induction ps with
  | nil => intro g _; rfl
  | cons p rest ih =>
    intro g h
    simp only [binary_loop]
    rw [h p (by simp)]
    exact ih g fun q hq => h q (by simp [hq])

/-- Binary variant of `unary_loop_fail`. -/
theorem binary_loop_fail (cases : List BinaryCase) (f : FP → FP → FP) :
    ∀ (ps : List (FP × FP)) (g : Bool), binary_loop cases f ps g = .fail →
      ∃ p ∈ ps, ∃ c, firstMatchB cases p.1 p.2 = some c ∧
        c.check_result p.1 p.2 (f p.1 p.2) = false := by
  intro ps
  induction ps with
  | nil =>
    intro g h
    cases g <;> simp [binary_loop] at h
  | cons p rest ih =>
    intro g h
    simp only [binary_loop] at h
    cases hfm : firstMatchB cases p.1 p.2 with
    | none =>
      rw [hfm] at h
      obtain ⟨q, hq, hc⟩ := ih g h
      exact ⟨q, by simp [hq], hc⟩
    | some c =>
      rw [hfm] at h
      dsimp only at h
      by_cases hchk : c.check_result p.1 p.2 (f p.1 p.2) = true
      · rw [if_pos hchk] at h
        obtain ⟨q, hq, hc⟩ := ih true h
        exact ⟨q, by simp [hq], hc⟩
      · exact ⟨p, by simp, c, hfm, by simpa using hchk⟩

/-- C4: a unary or binary verification iteration in which no element's
input(s) satisfy any parsed condition ends in rejection (the harness
retries), never in a pass or a failure; and a failure arises only from
some element whose first matching case has its result check violated. -/
theorem c4_reject_iff_unexercised :
    (∀ (cases : List UnaryCase) (f : FP → FP) (xs : List FP),
      (∀ x ∈ xs, firstMatch cases x = none) →
      test_unary cases f xs = .reject) ∧
    (∀ (cases : List UnaryCase) (f : FP → FP) (xs : List FP),
      test_unary cases f xs = .fail →
      ∃ x ∈ xs, ∃ c, firstMatch cases x = some c ∧
        c.check_result x (f x) = false) ∧
    (∀ (cases : List BinaryCase) (f : FP → FP → FP) (ps : List (FP × FP)),
      (∀ p ∈ ps, firstMatchB cases p.1 p.2 = none) →
      test_binary cases f ps = .reject) ∧
    (∀ (cases : List BinaryCase) (f : FP → FP → FP) (ps : List (FP × FP)),
      test_binary cases f ps = .fail →
      ∃ p ∈ ps, ∃ c, firstMatchB cases p.1 p.2 = some c ∧
        c.check_result p.1 p.2 (f p.1 p.2) = false) :=
  ⟨fun cases f xs h => unary_loop_all_none cases f xs false h,
   fun cases f xs h => unary_loop_fail cases f xs false h,
   fun cases f ps h => binary_loop_all_none cases f ps false h,
   fun cases f ps h => binary_loop_fail cases f ps false h⟩

/-- C4 witness: a single NaN-condition case never fires on the sample
`[1.0]`, and the iteration rejects. -/
theorem c4_reject_iff_unexercised_witness :
    (∀ x ∈ [FP.fin 1],
      firstMatch [⟨isnan, fun _ _ => true⟩] x = none) ∧
    test_unary [⟨isnan, fun _ _ => true⟩] (fun _ => FP.nan) [FP.fin 1] =
      .reject := by
  have h : ∀ x ∈ [FP.fin 1],
      firstMatch [(⟨isnan, fun _ _ => true⟩ : UnaryCase)] x = none := by
    intro x hx
    simp only [List.mem_singleton] at hx
    subst hx
    rfl
  exact ⟨h,
    c4_reject_iff_unexercised.1 [⟨isnan, fun _ _ => true⟩]
      (fun _ => FP.nan) [FP.fin 1] h⟩

/-- The scan returns the first case whose condition holds, skipping the
non-matching prefix. -/
theorem firstMatch_append (pre post : List UnaryCase) (c : UnaryCase)
    (x : FP) (hpre : ∀ c' ∈ pre, c'.cond x = false) (hc : c.cond x = true) :
    firstMatch (pre ++ c :: post) x = some c := by
  induction pre with
  | nil => simp [firstMatch, List.find?_cons_of_pos, hc]
  | cons a l ih =>
    have ha : a.cond x = false := hpre a (by simp)
    simp only [List.cons_append, firstMatch, List.find?]
    rw [ha]
    exact ih fun c' hc' => hpre c' (by simp [hc'])

/-- Binary variant of `firstMatch_append`. -/
theorem firstMatchB_append (pre post : List BinaryCase) (c : BinaryCase)
    (i1 i2 : FP) (hpre : ∀ c' ∈ pre, c'.cond i1 i2 = false)
    (hc : c.cond i1 i2 = true) :
    firstMatchB (pre ++ c :: post) i1 i2 = some c := by
  induction pre with
  | nil => simp [firstMatchB, List.find?_cons_of_pos, hc]
  | cons a l ih =>
    have ha : a.cond i1 i2 = false := hpre a (by simp)
    simp only [List.cons_append, firstMatchB, List.find?]
    rw [ha]
    exact ih fun c' hc' => hpre c' (by simp [hc'])

/-- C6: per element, the scan applies the result check of exactly the
first case whose condition holds: with a non-matching prefix `pre`, a
matching case `c` and arbitrary later cases `post`, the element's outcome
is decided by `c.check_result` alone — the cases in `post` are never
consulted, whether or not their conditions would also hold. -/
theorem c6_first_match_wins :
    (∀ (pre post : List UnaryCase) (c : UnaryCase) (x : FP) (f : FP → FP),
      (∀ c' ∈ pre, c'.cond x = false) → c.cond x = true →
      firstMatch (pre ++ c :: post) x = some c ∧
      test_unary (pre ++ c :: post) f [x] =
        (if c.check_result x (f x) then .pass else .fail)) ∧
    (∀ (pre post : List BinaryCase) (c : BinaryCase) (i1 i2 : FP)
      (f : FP → FP → FP),
      (∀ c' ∈ pre, c'.cond i1 i2 = false) → c.cond i1 i2 = true →
      firstMatchB (pre ++ c :: post) i1 i2 = some c ∧
      test_binary (pre ++ c :: post) f [(i1, i2)] =
        (if c.check_result i1 i2 (f i1 i2) then .pass else .fail)) := by
  constructor
  · intro pre post c x f hpre hc
    have hfm := firstMatch_append pre post c x hpre hc
    refine ⟨hfm, ?_⟩
    simp only [test_unary, unary_loop, hfm]
    cases hchk : c.check_result x (f x) <;> simp [hchk, unary_loop]
  · intro pre post c i1 i2 f hpre hc
    have hfm := firstMatchB_append pre post c i1 i2 hpre hc
    refine ⟨hfm, ?_⟩
    simp only [test_binary, binary_loop, hfm]
    cases hchk : c.check_result i1 i2 (f i1 i2) <;> simp [hchk, binary_loop]

/-- C6 witness: with a non-matching zero case first, a matching NaN case
with a failing check second, and a later NaN case whose check would pass,
the iteration fails on the second case — the later matching case is
ignored. -/
theorem c6_first_match_wins_witness :
    ((∀ c' ∈ [(⟨is_neg_zero, fun _ _ => true⟩ : UnaryCase)],
        c'.cond .nan = false) ∧
      (⟨isnan, fun _ _ => false⟩ : UnaryCase).cond .nan = true) ∧
    (firstMatch ([⟨is_neg_zero, fun _ _ => true⟩] ++
        (⟨isnan, fun _ _ => false⟩ : UnaryCase) ::
          [⟨isnan, fun _ _ => true⟩]) .nan =
      some ⟨isnan, fun _ _ => false⟩ ∧
    test_unary ([⟨is_neg_zero, fun _ _ => true⟩] ++
        (⟨isnan, fun _ _ => false⟩ : UnaryCase) ::
          [⟨isnan, fun _ _ => true⟩]) (fun _ => FP.nan) [.nan] =
      (if (⟨isnan, fun _ _ => false⟩ : UnaryCase).check_result .nan FP.nan
        then .pass else .fail)) := by
  have hpre : ∀ c' ∈ [(⟨is_neg_zero, fun _ _ => true⟩ : UnaryCase)],
      c'.cond .nan = false := by
    intro c' hc'
    simp only [List.mem_singleton] at hc'
    subst hc'
    rfl
  exact ⟨⟨hpre, rfl⟩,
    c6_first_match_wins.1 [⟨is_neg_zero, fun _ _ => true⟩]
      [⟨isnan, fun _ _ => true⟩] ⟨isnan, fun _ _ => false⟩ .nan
      (fun _ => FP.nan) hpre rfl⟩

/-- C5: an unrecognized *phrasing* is indeed non-fatal (warning, clause
skipped, parse returns normally), and the "remaining cases" boilerplate
is skipped silently; but an unrecognized *literal token* inside a
recognized phrasing (here ```` ``2`` ````) hits the `repr_to_value[...]`
dictionary lookup, which raises `KeyError` — not the caught
`ValueParseError` — so the parse aborts instead of warning and
continuing. -/
theorem c5_unrecognized_token_raises_keyerror :
    parse_unary_docstring_loop
      ["    - If ``x_i`` is ``2``, the result is ``1``."] =
      .error (.keyError "2") ∧
    parse_unary_shape
      ["    - If ``x_i`` is gibberish, the result is ``1``.",
        "    - If ``x_i`` is ``NaN``, the result is ``NaN``."] =
      .ok (1, [.notReadable "gibberish"]) ∧
    parse_unary_shape ["    - In the remaining cases the rule applies."] =
      .ok (0, []) ∧
    parse_unary_shape ["garbage"] = .ok (0, [.lineNotReadable "garbage"]) :=
  ⟨rfl, rfl, rfl, rfl⟩
